import Mathlib

/-
  Verification of the cachebox cache library.

  The definitions below are a shallow embedding of the Python sources:
  - src/python/cachebox/utils.py   (memoizer, python branch)
  - src/cachebox/utils.py          (memoizer, extension branch)
  - src/python/cachebox/_cachebox.py (cache wrapper classes)
  The native `_core` module is not part of the sources; where its
  behaviour is needed it is modelled from the specification and the
  definition says so in its doc comment.
-/

set_option autoImplicit false

namespace Cachebox

variable {K V E A : Type} [DecidableEq K]

/-- Lookup in an association list, mirroring a Python dict read
(`d[k]` / `d.get(k)`). Returns the value of the first pair whose key
matches. -/
def alookup : List (K × A) → K → Option A
  | [], _ => none
  | (k2, v) :: rest, k => if k2 = k then some v else alookup rest k

/-- Write to an association list, mirroring a Python dict write
(`d[k] = v`): replaces the value in place when the key is present,
otherwise appends the pair at the end (dicts preserve insertion order). -/
def aupdate : List (K × A) → K → A → List (K × A)
  | [], k, v => [(k, v)]
  | (k2, v2) :: rest, k, v =>
      if k2 = k then (k, v) :: rest else (k2, v2) :: aupdate rest k v

/-- Removal from an association list, mirroring `d.pop(k)` on a Python
dict: drops the first pair whose key matches. -/
def aremove : List (K × A) → K → List (K × A)
  | [], _ => []
  | (k2, v) :: rest, k => if k2 = k then rest else (k2, v) :: aremove rest k

theorem alookup_aupdate_self (l : List (K × A)) (k : K) (v : A) :
    alookup (aupdate l k v) k = some v := by
  induction l with
  | nil => simp [aupdate, alookup]
  | cons hd tl ih =>
      obtain ⟨k2, v2⟩ := hd
      by_cases h : k2 = k
      · simp [aupdate, alookup, h]
      · simp [aupdate, alookup, h, ih]

theorem alookup_aremove_none (l : List (K × A)) (k k2 : K)
    (h : alookup l k = none) : alookup (aremove l k2) k = none := by
  induction l with
  | nil => simpa [aremove] using h
  | cons hd tl ih =>
      obtain ⟨k3, v3⟩ := hd
      by_cases h3 : k3 = k
      · simp [alookup, h3] at h
      · simp only [alookup, if_neg h3] at h
        by_cases h4 : k3 = k2
        · simpa [aremove, h4] using h
        · simp [aremove, h4, alookup, h3, ih h]

theorem alookup_append_left_none (l l2 : List (K × A)) (k : K)
    (h : alookup l k = none) : alookup (l ++ l2) k = alookup l2 k := by
  induction l with
  | nil => simp
  | cons hd tl ih =>
      obtain ⟨k3, v3⟩ := hd
      by_cases h3 : k3 = k
      · simp [alookup, h3] at h
      · simp only [alookup, if_neg h3] at h
        simp [alookup, h3, ih h]

theorem alookup_none_of_not_mem_keys (l : List (K × A)) (k : K)
    (h : k ∉ l.map Prod.fst) : alookup l k = none := by
  induction l with
  | nil => simp [alookup]
  | cons hd tl ih =>
      obtain ⟨k3, v3⟩ := hd
      simp only [List.map_cons, List.mem_cons] at h
      push_neg at h
      have hne : ¬ k3 = k := fun hh => h.1 hh.symm
      simp [alookup, hne, ih h.2]

theorem alookup_filter_none (l : List (K × A)) (p : K × A → Bool) (k : K)
    (h : alookup l k = none) : alookup (l.filter p) k = none := by
  induction l with
  | nil => simp [alookup]
  | cons hd tl ih =>
      obtain ⟨k3, v3⟩ := hd
      by_cases h3 : k3 = k
      · simp [alookup, h3] at h
      · simp only [alookup, if_neg h3] at h
        by_cases hp : p (k3, v3)
        · simp [List.filter, hp, alookup, h3, ih h]
        · simp [List.filter, hp, ih h]

/-! ## The memoizer (`_cached_wrapper` in both utils.py files)

The wrapper maintains a backing cache, hit and miss counters, a
defaultdict of per-key locks (`_LockWithCounter`) and a per-key
exception cache. The model below sequentialises one call of the inner
`_wrapped` function. Concurrency enters only through the waiter count
of the per-key lock, so the model takes the number of OTHER waiters on
that lock as a parameter; the count seen by the code while it holds the
lock is `otherWaiters + 1` (the lock context manager increments
`waiters` on entry). Since defaultdict entries are never deleted by a
call, the lock table is modelled by the list of keys present in it.
The user callback is modelled as non-raising; its invocations are
reported in the `events` field. The value returned to the caller
passes through `_copy_if_need`, modelled by the function `copyv`. -/

/-- Event code for a miss (`EVENT_MISS = 1` in utils.py). -/
def EVENT_MISS : Nat := 1

/-- Event code for a hit (`EVENT_HIT = 2` in utils.py). -/
def EVENT_HIT : Nat := 2

/-- Outcome of calling a Python function: a returned value or a raised
exception. -/
inductive Outcome (V E : Type) where
  | ret (v : V)
  | raised (e : E)
deriving DecidableEq, Repr

/-- The mutable state captured by `_cached_wrapper`: the backing cache
(as key-value pairs), the hit and miss counters, the set of keys present
in the `locks` defaultdict, and the exception cache. -/
structure MemoState (K V E : Type) where
  cache : List (K × V)
  hits : Nat
  misses : Nat
  lockKeys : List K
  exceptions : List (K × E)
deriving DecidableEq, Repr

/-- Result of one call of the wrapped function: the outcome delivered to
the caller, the state after the call, and the callback invocations
(event code, key, value) performed during the call. -/
structure CallResult (K V E : Type) where
  outcome : Outcome V E
  state : MemoState K V E
  events : List (Nat × K × V)
deriving DecidableEq, Repr

/-- `locks[key]` on a defaultdict: makes sure the key is present. -/
def addKey (l : List K) (k : K) : List K := if k ∈ l then l else l ++ [k]

/-- One call of `_wrapped` from src/python/cachebox/utils.py lines
284-333. `ignore` is the truthiness of the popped `cachebox__ignore`
keyword, `fb` is the behaviour of the wrapped function `func` on these
arguments, and `otherWaiters` is the number of other threads currently
waiting on (or holding) this key's lock. -/
def wrapped_call (copyv : V → V) (st : MemoState K V E) (key : K)
    (ignore : Bool) (fb : Outcome V E) (otherWaiters : Nat) :
    CallResult K V E :=
  if ignore then
    ⟨fb, st, []⟩
  else
    match alookup st.cache key with
    | some result =>
        ⟨.ret (copyv result), { st with hits := st.hits + 1 },
          [(EVENT_HIT, key, result)]⟩
    | none =>
        let st1 := { st with lockKeys := addKey st.lockKeys key }
        let waiters := otherWaiters + 1
        match alookup st1.exceptions key with
        | some e =>
            if waiters > 1 then ⟨.raised e, st1, []⟩
            else ⟨.raised e,
              { st1 with exceptions := aremove st1.exceptions key }, []⟩
        | none =>
            match alookup st1.cache key with
            | some result =>
                ⟨.ret (copyv result), { st1 with hits := st1.hits + 1 },
                  [(EVENT_HIT, key, result)]⟩
            | none =>
                match fb with
                | .raised e =>
                    if waiters > 1 then
                      ⟨.raised e,
                        { st1 with exceptions := aupdate st1.exceptions key e },
                        []⟩
                    else ⟨.raised e, st1, []⟩
                | .ret result =>
                    ⟨.ret (copyv result),
                      { st1 with cache := aupdate st1.cache key result,
                                 misses := st1.misses + 1 },
                      [(EVENT_MISS, key, result)]⟩

/-- One call of `_wrapped` from src/cachebox/utils.py lines 239-283.
It differs from `wrapped_call` in exactly one point: when the wrapped
function raises, the exception is stored in the exception cache
unconditionally (line 272), without the `waiters > 1` guard. -/
def wrapped_call_legacy (copyv : V → V) (st : MemoState K V E) (key : K)
    (ignore : Bool) (fb : Outcome V E) (otherWaiters : Nat) :
    CallResult K V E :=
  if ignore then
    ⟨fb, st, []⟩
  else
    match alookup st.cache key with
    | some result =>
        ⟨.ret (copyv result), { st with hits := st.hits + 1 },
          [(EVENT_HIT, key, result)]⟩
    | none =>
        let st1 := { st with lockKeys := addKey st.lockKeys key }
        let waiters := otherWaiters + 1
        match alookup st1.exceptions key with
        | some e =>
            if waiters > 1 then ⟨.raised e, st1, []⟩
            else ⟨.raised e,
              { st1 with exceptions := aremove st1.exceptions key }, []⟩
        | none =>
            match alookup st1.cache key with
            | some result =>
                ⟨.ret (copyv result), { st1 with hits := st1.hits + 1 },
                  [(EVENT_HIT, key, result)]⟩
            | none =>
                match fb with
                | .raised e =>
                    ⟨.raised e,
                      { st1 with exceptions := aupdate st1.exceptions key e },
                      []⟩
                | .ret result =>
                    ⟨.ret (copyv result),
                      { st1 with cache := aupdate st1.cache key result,
                                 misses := st1.misses + 1 },
                      [(EVENT_MISS, key, result)]⟩

/-- `cache_clear` from src/python/cachebox/utils.py lines 341-347:
clears the backing cache (the `reuse` flag only controls whether the
capacity is kept, which is not part of this state), zeroes both
counters, and clears the lock table and the exception cache. -/
def cache_clear (_st : MemoState K V E) : MemoState K V E :=
  ⟨[], 0, 0, [], []⟩

/-- `cache_clear` from src/cachebox/utils.py lines 291-296: clears the
backing cache, zeroes both counters and clears the lock table, but does
NOT touch the exception cache. -/
def cache_clear_legacy (st : MemoState K V E) : MemoState K V E :=
  ⟨[], 0, 0, [], st.exceptions⟩

/-! ## `_copy_if_need` (utils.py, identical in both branches)

A Python object is modelled by its identity (`oid`) and its exact
runtime type. `type(obj) in tocopy` tests the EXACT type, so a dict
subclass is distinct from `dict`; the tag `dictSub` stands for such a
subclass. `copy.copy` itself is passed in as a function `cp`, the model
only records through which branch the object travels. -/

/-- The exact runtime type of a Python object, as seen by
`type(obj) in tocopy`. -/
inductive PyTy where
  | dict
  | list
  | set
  | tuple
  | int
  | str
  | dictSub
  | otherTy
deriving DecidableEq, Repr

/-- A Python object: an identity plus an exact type. -/
structure PyObj where
  oid : Nat
  ty : PyTy
deriving DecidableEq, Repr

/-- The default `tocopy` argument of `_copy_if_need`:
`(dict, list, set)`. -/
def tocopyDefault : List PyTy := [PyTy.dict, PyTy.list, PyTy.set]

/-- `_copy_if_need(obj, tocopy, level)` from
src/python/cachebox/utils.py lines 193-202 (identical in
src/cachebox/utils.py lines 179-188). `cp` stands for `copy.copy`. -/
def copy_if_need (cp : PyObj → PyObj) (obj : PyObj) (tocopy : List PyTy)
    (level : Nat) : PyObj :=
  if level = 0 then obj
  else if level = 2 then cp obj
  else if obj.ty ∈ tocopy then cp obj else obj

/-! ## `make_key` / `make_hash_key` (utils.py, identical in both
branches)

Python values are modelled by the inductive type `PyVal`; the
constructor `objSentinel` stands for the builtin class `object` that
`make_key` appends as a separator between positional and keyword
arguments. `bool` is a distinct exact type (in Python `type(True)` is
`bool`, not `int`, so a `bool` never takes the fast path). The Python
builtin `hash` is passed in as a function. -/

/-- A Python value as juggled by the key makers. -/
inductive PyVal where
  | int (n : Int)
  | boolean (b : Bool)
  | str (s : String)
  | objSentinel
  | tup (xs : List PyVal)
  | otherVal (tag : Nat)

/-- Exact-type tags used by `type(key[0]) in fasttype`. -/
inductive PyValTy where
  | intT
  | boolT
  | strT
  | objectT
  | tupleT
  | otherT
deriving DecidableEq, Repr

/-- `type(v)` on a `PyVal`. -/
def PyVal.typeTag : PyVal → PyValTy
  | .int _ => .intT
  | .boolean _ => .boolT
  | .str _ => .strT
  | .objSentinel => .objectT
  | .tup _ => .tupleT
  | .otherVal _ => .otherT

/-- The flattening of `for item in kwds.items(): key += item`: each
keyword pair contributes its name and its value as two further tuple
elements. -/
def kwdsFlatten : List (String × PyVal) → List PyVal
  | [] => []
  | (k, v) :: rest => PyVal.str k :: v :: kwdsFlatten rest

/-- The fast-path test of `make_key`: the final
`if fasttype and len(key) == 1 and type(key[0]) in fasttype` returns
`key[0]` itself. -/
def fastSingle (fasttype : List PyValTy) : List PyVal → Option PyVal
  | [x] => if ¬ fasttype.isEmpty ∧ x.typeTag ∈ fasttype then some x else none
  | _ => none

/-- The default `fasttype` argument of `make_key`: `(int, str)`. -/
def fasttypeDefault : List PyValTy := [PyValTy.intT, PyValTy.strT]

/-- `make_key(args, kwds, fasttype)` from src/python/cachebox/utils.py
lines 205-226 (identical in src/cachebox/utils.py lines 191-201). -/
def make_key (args : List PyVal) (kwds : List (String × PyVal))
    (fasttype : List PyValTy) : PyVal :=
  let key := if kwds.isEmpty then args
             else args ++ PyVal.objSentinel :: kwdsFlatten kwds
  match fastSingle fasttype key with
  | some x => x
  | none => PyVal.tup key

/-- `make_hash_key(args, kwds)` from src/python/cachebox/utils.py lines
229-240: `hash(make_key(args, kwds))` with the default `fasttype`.
`pyhash` stands for the builtin `hash`. -/
def make_hash_key (pyhash : PyVal → Int) (args : List PyVal)
    (kwds : List (String × PyVal)) : Int :=
  pyhash (make_key args kwds fasttypeDefault)

/-! ## `drain` (src/python/cachebox/_cachebox.py)

Every policy cache class carries the same `drain` method (FIFOCache at
lines 415-426, RRCache 676-687, LRUCache 949-960, LFUCache, TTLCache,
VTTLCache alike): a guard for `n <= 0`, then
`for i in range(n): try popitem except CoreKeyError: return i`,
then `return i` after the loop. The native store only matters through
how many entries `popitem` can still remove, so it is modelled by its
size. -/

/-- The `for i in range(n)` loop of `drain`, at loop index `i` with
`raw` entries left in the store; the last (structural) argument is the
number of iterations still to run, `n - i`. Returns the Python return
value paired with the number of entries left. When `popitem` fails
mid-loop the code returns the current index `i`; when the loop exhausts
its iterations, the code returns the final loop index, which is
`i - 1` once `i` has reached `n`. -/
def drainIter (raw : Nat) (i : Nat) : Nat → Nat × Nat
  | 0 => (i - 1, raw)
  | r + 1 =>
      match raw with
      | 0 => (i, 0)
      | raw2 + 1 => drainIter raw2 (i + 1) r

/-- `drain(n)` on a cache currently holding `raw` entries; `n` is a
Python int, so it may be negative. Returns the value returned to the
caller paired with the number of entries left afterwards. -/
def drain (raw : Nat) (n : Int) : Nat × Nat :=
  if n ≤ 0 then (0, raw) else drainIter raw 0 n.toNat

/-! ## Cache classes (src/python/cachebox/_cachebox.py)

The Python wrapper classes delegate storage to the native `_core`
module, which is not among the sources; the storage behaviour used
below is therefore modelled from the specification, as each doc comment
notes. The wrapper-level logic (error translation, the
`NotImplementedError` stubs, the TTL validation in `TTLCache.__init__`
and `VTTLCache.insert`) is taken from `_cachebox.py` itself. -/

/-- The Python exceptions surfaced by the cache classes. -/
inductive PyErr where
  | keyError
  | valueError
  | notImplementedError
  | overflowError
deriving DecidableEq, Repr

/-- The plain `Cache` class (no eviction policy): `maxsize` plus an
unordered table. Only its `popitem` stub matters here; the table is
carried to express claims about non-empty caches. -/
structure PlainCache (K V : Type) where
  maxsize : Nat
  table : List (K × V)
deriving DecidableEq, Repr

/-- `Cache.popitem` from src/python/cachebox/_cachebox.py lines
169-170: unconditionally `raise NotImplementedError()`, regardless of
the cache contents. -/
def Cache_popitem (_c : PlainCache K V) :
    Except PyErr ((K × V) × PlainCache K V) :=
  Except.error PyErr.notImplementedError

/-- `Cache.drain` from src/python/cachebox/_cachebox.py lines 172-173:
unconditionally `raise NotImplementedError()`. -/
def Cache_drain (_c : PlainCache K V) (_n : Int) : Except PyErr Nat :=
  Except.error PyErr.notImplementedError

/-- Modelled from the spec: the `_core.FIFOCache` store (section 4.2 of
the spec), which is a native module not among the sources. State: the
immutable `maxsize` and the entries as a list ordered by insertion
(head = oldest). -/
structure FIFOState (K V : Type) where
  maxsize : Nat
  entries : List (K × V)
deriving DecidableEq, Repr

/-- Modelled from the spec: `FIFOCache.insert` (spec section 4.2).
Insert of an existing key replaces the value in place and does not
re-order; insert of a new key evicts the oldest entry first when the
cache is bounded and full, then appends at the tail. Returns the
previous value (or none) paired with the new state. -/
def FIFO_insert (c : FIFOState K V) (k : K) (v : V) :
    Option V × FIFOState K V :=
  match alookup c.entries k with
  | some old => (some old, { c with entries := aupdate c.entries k v })
  | none =>
      let es := if 0 < c.maxsize ∧ c.maxsize ≤ c.entries.length
                then c.entries.tail else c.entries
      (none, { c with entries := es ++ [(k, v)] })

/-- Inserting a list of key-value pairs in order, discarding the
returned previous values. -/
def FIFO_insertAll (c : FIFOState K V) (ps : List (K × V)) : FIFOState K V :=
  ps.foldl (fun acc p => (FIFO_insert acc p.1 p.2).2) c

/-- Modelled from the spec: `_core.FIFOCache.popitem` (spec section
4.2) removes and returns the entry with the minimum insertion sequence,
i.e. the head of the insertion order; fails on an empty cache. -/
def FIFO_raw_popitem (c : FIFOState K V) :
    Option ((K × V) × FIFOState K V) :=
  match c.entries with
  | [] => none
  | e :: rest => some (e, { c with entries := rest })

/-- `FIFOCache.popitem` from src/python/cachebox/_cachebox.py lines
408-413: delegates to the native popitem and turns its `CoreKeyError`
into a `KeyError`. -/
def FIFOCache_popitem (c : FIFOState K V) :
    Except PyErr ((K × V) × FIFOState K V) :=
  match FIFO_raw_popitem c with
  | none => Except.error PyErr.keyError
  | some r => Except.ok r

/-- A TTL duration argument as accepted by `TTLCache.__init__`: either
a float number of seconds or a `timedelta` (represented by its
`total_seconds()` value). -/
inductive TTLSpec where
  | seconds (s : ℚ)
  | delta (secondsTotal : ℚ)
deriving DecidableEq, Repr

/-- The seconds value of a `TTLSpec` after the
`isinstance(ttl, timedelta)` conversion at the top of
`TTLCache.__init__`. -/
def TTLSpec.toSeconds : TTLSpec → ℚ
  | .seconds s => s
  | .delta s => s

/-- State of a TTLCache: the validated uniform ttl, the bound, and the
entries (key, value, expiry instant) in insertion order. -/
structure TTLState (K V : Type) where
  maxsize : Nat
  ttl : ℚ
  entries : List (K × V × ℚ)
deriving DecidableEq, Repr

/-- `TTLCache.__init__` from src/python/cachebox/_cachebox.py lines
1371-1403: converts a `timedelta` ttl to seconds, rejects a
non-positive ttl with `ValueError`, and otherwise builds the (empty)
native store. -/
def TTLCache_new (K V : Type) (maxsize : Nat) (ttlArg : TTLSpec) :
    Except PyErr (TTLState K V) :=
  let ttl := ttlArg.toSeconds
  if ttl ≤ 0 then Except.error PyErr.valueError
  else Except.ok ⟨maxsize, ttl, []⟩

/-- A per-insert TTL argument as accepted by `VTTLCache.insert`: a
float number of seconds, a `timedelta` (its `total_seconds()`), or a
`datetime` (an absolute instant on the same clock as `now`). -/
inductive VTTLSpec where
  | seconds (s : ℚ)
  | delta (secondsTotal : ℚ)
  | datetime (instant : ℚ)
deriving DecidableEq, Repr

/-- The seconds value computed by `VTTLCache.insert` for a non-None
ttl: `timedelta` becomes `total_seconds()`, a `datetime` becomes
`(ttl - datetime.now()).total_seconds()`. -/
def VTTLSpec.toSeconds (now : ℚ) : VTTLSpec → ℚ
  | .seconds s => s
  | .delta s => s
  | .datetime instant => instant - now

/-- State of a VTTLCache: the bound and the entries
(key, value, optional expiry instant). -/
structure VTTLState (K V : Type) where
  maxsize : Nat
  entries : List (K × V × Option ℚ)
deriving DecidableEq, Repr

/-- Modelled from the spec: lazy expiration of the `_core.VTTLCache`
store (spec sections 4.5 and 4.6) drops every entry whose expiry
instant is not strictly in the future; entries without expiry stay. -/
def vttlExpire (now : ℚ) (l : List (K × V × Option ℚ)) :
    List (K × V × Option ℚ) :=
  l.filter (fun e =>
    match e.2.2 with
    | none => true
    | some t => decide (now < t))

/-- Is the first expiry strictly earlier than the second, where no
expiry sorts last (spec section 4.6)? -/
def earlierExpiry : Option ℚ → Option ℚ → Bool
  | some a, some b => decide (a < b)
  | some _, none => true
  | none, _ => false

/-- The least expiry among a list of entries, where no expiry counts as
last (largest); none when the list is empty or the least element has no
expiry. Auxiliary to `vttlVictim`. -/
def vttlMinExpiry : List (K × V × Option ℚ) → Option ℚ
  | [] => none
  | (_, _, t) :: rest =>
      match vttlMinExpiry rest with
      | none => t
      | some t2 => if earlierExpiry (some t2) t then some t2 else t

/-- Modelled from the spec: the eviction victim of a full VTTLCache is
the entry with the nearest expiry instant, entries with no expiry
sorting last (spec section 4.6); earlier entries win ties. -/
def vttlVictim : List (K × V × Option ℚ) → Option K
  | [] => none
  | (k, _, t) :: rest =>
      match vttlVictim rest, vttlMinExpiry rest with
      | some k2, t2 => if earlierExpiry t2 t then some k2 else some k
      | none, _ => some k

/-- Modelled from the spec: `_core.VTTLCache.insert` (spec section
4.6). Expires lazily, then replaces the value and expiry of an existing
key in place, or — for a new key — evicts the victim when the cache is
bounded and full and appends the new entry with
`expires_at = now + duration` (or no expiry). Returns the previous
value (or none) paired with the new state. -/
def VTTL_raw_insert (now : ℚ) (c : VTTLState K V) (k : K) (v : V)
    (dur : Option ℚ) : Option V × VTTLState K V :=
  let ex : Option ℚ := dur.map (fun s => now + s)
  let l := vttlExpire now c.entries
  match alookup l k with
  | some old => (some old.1, ⟨c.maxsize, aupdate l k (v, ex)⟩)
  | none =>
      let l2 := if 0 < c.maxsize ∧ c.maxsize ≤ l.length then
                  match vttlVictim l with
                  | none => l
                  | some vk => aremove l vk
                else l
      (none, ⟨c.maxsize, l2 ++ [(k, (v, ex))]⟩)

/-- `VTTLCache.insert` from src/python/cachebox/_cachebox.py lines
1791-1817: for a non-None ttl, converts `timedelta`/`datetime` to a
seconds duration and raises `ValueError` when that duration is not
strictly positive, BEFORE the native store is touched; otherwise
delegates to the native insert (ttl None means no expiry). The state is
returned alongside the outcome so that the error case shows the cache
unchanged. -/
def VTTLCache_insert (now : ℚ) (c : VTTLState K V) (k : K) (v : V)
    (ttl : Option VTTLSpec) : Except PyErr (Option V) × VTTLState K V :=
  match ttl with
  | none =>
      let r := VTTL_raw_insert now c k v none
      (Except.ok r.1, r.2)
  | some t =>
      let s := t.toSeconds now
      if s ≤ 0 then (Except.error PyErr.valueError, c)
      else
        let r := VTTL_raw_insert now c k v (some s)
        (Except.ok r.1, r.2)

/-! ## Helper lemmas about the memoizer -/

theorem wrapped_call_exc_hit (copyv : V → V) (st : MemoState K V E) (key : K)
    (e : E) (fb : Outcome V E) (w : Nat)
    (hc : alookup st.cache key = none)
    (he : alookup st.exceptions key = some e) :
    wrapped_call copyv st key false fb w =
      ⟨.raised e,
        { st with lockKeys := addKey st.lockKeys key,
                  exceptions := if 0 < w then st.exceptions
                                else aremove st.exceptions key },
        []⟩ := by
  rcases w with _ | w2
  · simp [wrapped_call, hc, he]
  · have hgt : w2 + 1 + 1 > 1 := by omega
    simp [wrapped_call, hc, he, hgt]

theorem wrapped_call_legacy_exc_hit (copyv : V → V) (st : MemoState K V E)
    (key : K) (e : E) (fb : Outcome V E) (w : Nat)
    (hc : alookup st.cache key = none)
    (he : alookup st.exceptions key = some e) :
    wrapped_call_legacy copyv st key false fb w =
      ⟨.raised e,
        { st with lockKeys := addKey st.lockKeys key,
                  exceptions := if 0 < w then st.exceptions
                                else aremove st.exceptions key },
        []⟩ := by
  rcases w with _ | w2
  · simp [wrapped_call_legacy, hc, he]
  · have hgt : w2 + 1 + 1 > 1 := by omega
    simp [wrapped_call_legacy, hc, he, hgt]

theorem wrapped_call_miss_raise (copyv : V → V) (st : MemoState K V E)
    (key : K) (e : E) (w : Nat)
    (hc : alookup st.cache key = none)
    (he : alookup st.exceptions key = none) :
    wrapped_call copyv st key false (Outcome.raised e) w =
      ⟨.raised e,
        { st with lockKeys := addKey st.lockKeys key,
                  exceptions := if 0 < w then aupdate st.exceptions key e
                                else st.exceptions },
        []⟩ := by
  rcases w with _ | w2
  · simp [wrapped_call, hc, he]
  · have hgt : w2 + 1 + 1 > 1 := by omega
    simp [wrapped_call, hc, he, hgt]

theorem wrapped_call_legacy_miss_raise (copyv : V → V) (st : MemoState K V E)
    (key : K) (e : E) (w : Nat)
    (hc : alookup st.cache key = none)
    (he : alookup st.exceptions key = none) :
    wrapped_call_legacy copyv st key false (Outcome.raised e) w =
      ⟨.raised e,
        { st with lockKeys := addKey st.lockKeys key,
                  exceptions := aupdate st.exceptions key e },
        []⟩ := by
  simp [wrapped_call_legacy, hc, he]

/-! ## Claim C1 -/

/-- Claim C1: in the memoizer single-flight path (both
src/python/cachebox/utils.py lines 307-310 and src/cachebox/utils.py
lines 259-262), when a wrapped call acquires the per-key lock and the
exception cache holds an entry for its key, then with more than one
waiter on the lock (here: at least one other waiter besides this call)
the cached exception is raised and left in place, and with exactly one
waiter the entry is consumed and raised. Nothing else changes except
that the key is ensured present in the lock table, and no callback
runs. -/
theorem C1_single_flight_exception (copyv : V → V) (st : MemoState K V E)
    (key : K) (e : E) (fb : Outcome V E) (w : Nat)
    (hc : alookup st.cache key = none)
    (he : alookup st.exceptions key = some e) :
    (0 < w →
      wrapped_call copyv st key false fb w =
        ⟨.raised e, { st with lockKeys := addKey st.lockKeys key }, []⟩ ∧
      wrapped_call_legacy copyv st key false fb w =
        ⟨.raised e, { st with lockKeys := addKey st.lockKeys key }, []⟩) ∧
    (wrapped_call copyv st key false fb 0 =
        ⟨.raised e,
          { st with lockKeys := addKey st.lockKeys key,
                    exceptions := aremove st.exceptions key }, []⟩ ∧
      wrapped_call_legacy copyv st key false fb 0 =
        ⟨.raised e,
          { st with lockKeys := addKey st.lockKeys key,
                    exceptions := aremove st.exceptions key }, []⟩) := by
  refine ⟨fun hw => ⟨?_, ?_⟩, ⟨?_, ?_⟩⟩
  · rw [wrapped_call_exc_hit copyv st key e fb w hc he]
    simp [hw]
  · rw [wrapped_call_legacy_exc_hit copyv st key e fb w hc he]
    simp [hw]
  · rw [wrapped_call_exc_hit copyv st key e fb 0 hc he]
    simp
  · rw [wrapped_call_legacy_exc_hit copyv st key e fb 0 hc he]
    simp

/-- Concrete instance of C1: with one other waiter the exception stays
cached; with no other waiter it is consumed. -/
theorem C1_single_flight_exception_witness :
    (wrapped_call (fun v => v) (⟨[], 0, 0, [], [(1, 7)]⟩ : MemoState Nat Nat Nat)
        1 false (Outcome.ret 0) 1 =
      ⟨Outcome.raised 7, ⟨[], 0, 0, [1], [(1, 7)]⟩, []⟩) ∧
    (wrapped_call (fun v => v) (⟨[], 0, 0, [], [(1, 7)]⟩ : MemoState Nat Nat Nat)
        1 false (Outcome.ret 0) 0 =
      ⟨Outcome.raised 7, ⟨[], 0, 0, [1], []⟩, []⟩) := by
  have h := C1_single_flight_exception (fun v => (v : Nat))
    (⟨[], 0, 0, [], [(1, 7)]⟩ : MemoState Nat Nat Nat) 1 7 (Outcome.ret 0) 1
    (by decide) (by decide)
  exact ⟨(h.1 (by decide)).1, h.2.1⟩

/-! ## Claim C3 -/

/-- Claim C3 counterexample: the claim says the exception cache is
empty after `cache_clear()`, for any memoized function. In the
src/cachebox/utils.py implementation a failing single-waiter call
stores its exception, and `cache_clear` (lines 291-298) does not clear
the exception table, so it is still non-empty afterwards. -/
theorem C3_cache_clear_counterexample :
    (cache_clear_legacy
        (wrapped_call_legacy (fun v => v)
          (⟨[], 0, 0, [], []⟩ : MemoState Nat Nat Nat) 1 false
          (Outcome.raised 7) 0).state).exceptions ≠ [] := by
  decide

omit [DecidableEq K] in
/-- Claim C3 (amended): after `cache_clear()` the hit and miss counters
are 0, the backing cache is empty and the per-key lock table is empty in
both implementations; the per-key exception cache is also emptied by
src/python/cachebox/utils.py lines 341-349, but src/cachebox/utils.py
lines 291-298 leaves the exception cache untouched. -/
theorem C3_cache_clear (st : MemoState K V E) :
    cache_clear st = (⟨[], 0, 0, [], []⟩ : MemoState K V E) ∧
    cache_clear_legacy st =
      (⟨[], 0, 0, [], st.exceptions⟩ : MemoState K V E) :=
  ⟨rfl, rfl⟩

/-! ## Claim C4 -/

/-- Claim C4 counterexample: the claim says the exception is stored in
the exception cache if and only if the waiter count exceeds 1. In
src/cachebox/utils.py lines 269-273 the store is unconditional: a
failing call with no other waiter (waiter count exactly 1) still stores
the exception. -/
theorem C4_store_counterexample :
    ((wrapped_call_legacy (fun v => v)
        (⟨[], 0, 0, [], []⟩ : MemoState Nat Nat Nat) 1 false
        (Outcome.raised 7) 0).state).exceptions = [(1, 7)] ∧
    ¬ (0 + 1 > 1) := by
  decide

/-- Claim C4 (amended): when the wrapped function raises during a miss
under the per-key lock, the exception is always re-raised to the
current caller, the value cache and the miss counter are untouched and
no callback runs, in both implementations; the exception is stored in
the exception cache exactly when the waiter count exceeds 1 in
src/python/cachebox/utils.py lines 316-328, while src/cachebox/utils.py
lines 269-273 stores it unconditionally. -/
theorem C4_miss_raise (copyv : V → V) (st : MemoState K V E) (key : K)
    (e : E) (w : Nat)
    (hc : alookup st.cache key = none)
    (he : alookup st.exceptions key = none) :
    (wrapped_call copyv st key false (Outcome.raised e) w).outcome =
        Outcome.raised e ∧
    (wrapped_call_legacy copyv st key false (Outcome.raised e) w).outcome =
        Outcome.raised e ∧
    (wrapped_call copyv st key false (Outcome.raised e) w).state.cache =
        st.cache ∧
    (wrapped_call copyv st key false (Outcome.raised e) w).state.misses =
        st.misses ∧
    (wrapped_call_legacy copyv st key false (Outcome.raised e) w).state.cache =
        st.cache ∧
    (wrapped_call_legacy copyv st key false (Outcome.raised e) w).state.misses =
        st.misses ∧
    (wrapped_call copyv st key false (Outcome.raised e) w).state.exceptions =
        (if 0 < w then aupdate st.exceptions key e else st.exceptions) ∧
    (wrapped_call_legacy copyv st key false (Outcome.raised e) w).state.exceptions =
        aupdate st.exceptions key e ∧
    (wrapped_call copyv st key false (Outcome.raised e) w).events = [] ∧
    (wrapped_call_legacy copyv st key false (Outcome.raised e) w).events = [] := by
  rw [wrapped_call_miss_raise copyv st key e w hc he,
    wrapped_call_legacy_miss_raise copyv st key e w hc he]
  refine ⟨rfl, rfl, rfl, rfl, rfl, rfl, rfl, rfl, rfl, rfl⟩

/-- Concrete instance of the amended C4, at a failing call with no
other waiter: the python-branch implementation stores nothing, the
legacy implementation stores the exception; both re-raise and leave
cache and miss counter alone. -/
theorem C4_miss_raise_witness :
    (wrapped_call (fun v => v) (⟨[(2, 9)], 3, 4, [], []⟩ : MemoState Nat Nat Nat)
        1 false (Outcome.raised 7) 0).state.exceptions = [] ∧
    (wrapped_call_legacy (fun v => v)
        (⟨[(2, 9)], 3, 4, [], []⟩ : MemoState Nat Nat Nat)
        1 false (Outcome.raised 7) 0).state.exceptions = [(1, 7)] ∧
    (wrapped_call (fun v => v) (⟨[(2, 9)], 3, 4, [], []⟩ : MemoState Nat Nat Nat)
        1 false (Outcome.raised 7) 0).outcome = Outcome.raised 7 ∧
    (wrapped_call (fun v => v) (⟨[(2, 9)], 3, 4, [], []⟩ : MemoState Nat Nat Nat)
        1 false (Outcome.raised 7) 0).state.misses = 4 := by
  have h := C4_miss_raise (fun v => (v : Nat))
    (⟨[(2, 9)], 3, 4, [], []⟩ : MemoState Nat Nat Nat) 1 7 0
    (by decide) (by decide)
  refine ⟨?_, ?_, h.1, h.2.2.2.1⟩
  · rw [h.2.2.2.2.2.2.1]
    decide
  · rw [h.2.2.2.2.2.2.2.1]
    decide

/-! ## Claim C9 -/

/-- Claim C9: calling the memoized function with
`cachebox__ignore=True` (both src/python/cachebox/utils.py lines
287-288 and src/cachebox/utils.py lines 242-243) invokes the wrapped
function directly (its outcome is passed through untouched, in
particular without the copy step) and leaves the whole memoizer state
unchanged - cache, counters, lock table and exception cache - and no
callback is invoked. -/
theorem C9_ignore_bypass (copyv : V → V) (st : MemoState K V E) (key : K)
    (fb : Outcome V E) (w : Nat) :
    wrapped_call copyv st key true fb w = ⟨fb, st, []⟩ ∧
    wrapped_call_legacy copyv st key true fb w = ⟨fb, st, []⟩ :=
  ⟨rfl, rfl⟩

/-! ## Claim C2 -/

/-- Claim C2, evaluated on the code: `drain` removes `min(n, m)`
entries as claimed, and the `n <= 0` guard returns 0, and when the
store runs empty mid-loop (`m < n`) the returned count `m` is correct;
but when all `n` iterations succeed (`1 <= n <= m`) the trailing
`return i` returns the last loop index `n - 1` instead of the `n`
entries actually removed. In particular `drain(1)` on a cache holding
one entry empties the cache yet returns 0, contradicting the claim and
the method docstring. -/
theorem C2_drain_eval :
    drain 1 1 = (0, 0) ∧
    drain 5 3 = (2, 2) ∧
    drain 2 5 = (2, 0) ∧
    drain 4 (-2) = (0, 4) := by
  decide

/-! ## Claim C5 -/

theorem FIFO_insertAll_append (c : FIFOState K V) (ps : List (K × V))
    (p : K × V) :
    FIFO_insertAll c (ps ++ [p]) =
      (FIFO_insert (FIFO_insertAll c ps) p.1 p.2).2 := by
  simp [FIFO_insertAll]

theorem FIFO_insertAll_state (M : Nat) (hM : 0 < M) (ps : List (K × V))
    (hnd : (ps.map Prod.fst).Nodup) :
    FIFO_insertAll (⟨M, []⟩ : FIFOState K V) ps =
      ⟨M, ps.drop (ps.length - M)⟩ := by
  induction ps using List.reverseRecOn with
  | nil => simp [FIFO_insertAll]
  | append_singleton ps p ih =>
      rw [List.map_append] at hnd
      have hnd2 : (ps.map Prod.fst).Nodup := List.Nodup.of_append_left hnd
      have hmem : p.1 ∉ ps.map Prod.fst := by
        intro hm
        exact (List.disjoint_of_nodup_append hnd) hm (by simp)
      have hlk : alookup (ps.drop (ps.length - M)) p.1 = none := by
        apply alookup_none_of_not_mem_keys
        intro hm
        rw [List.map_drop] at hm
        exact hmem (List.mem_of_mem_drop hm)
      rw [FIFO_insertAll_append, ih hnd2]
      by_cases hlen : ps.length < M
      · have h0 : ps.length - M = 0 := by omega
        have h1 : ps.length + 1 - M = 0 := by omega
        have hlk2 : alookup ps p.1 = none := by
          rw [h0, List.drop_zero] at hlk
          exact hlk
        have hcond2 : ¬ (0 < M ∧ M ≤ ps.length) := by omega
        simp [FIFO_insert, hlk2, hcond2, h0, h1]
      · push_neg at hlen
        have hdl : (ps.drop (ps.length - M)).length = M := by
          rw [List.length_drop]
          omega
        have hcond : 0 < M ∧ M ≤ ((ps.drop (ps.length - M)).length) := by
          rw [hdl]
          omega
        have h1 : ps.length + 1 - M = (ps.length - M) + 1 := by omega
        have h2 : ps.length - M + 1 ≤ ps.length := by omega
        simp only [FIFO_insert, hlk, hcond, if_pos hcond, List.tail_drop]
        simp [List.length_append, h1,
          List.drop_append_of_le_length h2]

/-- Claim C5: for a FIFOCache with maxsize `M > 0`, inserting `n > M`
pairwise distinct keys into the empty cache leaves exactly the last `M`
inserted pairs, in insertion order (which is the iteration order of the
modelled store), and `popitem` removes and returns the oldest remaining
insertion. The store is the native `_core.FIFOCache`, modelled from the
spec (section 4.2). -/
theorem C5_fifo_eviction (M : Nat) (ps : List (K × V)) (hM : 0 < M)
    (hlen : M < ps.length) (hnd : (ps.map Prod.fst).Nodup) :
    (FIFO_insertAll (⟨M, []⟩ : FIFOState K V) ps).entries =
      ps.drop (ps.length - M) ∧
    (FIFO_insertAll (⟨M, []⟩ : FIFOState K V) ps).entries.length = M ∧
    (∀ e rest, ps.drop (ps.length - M) = e :: rest →
      FIFO_raw_popitem (FIFO_insertAll (⟨M, []⟩ : FIFOState K V) ps) =
        some (e, ⟨M, rest⟩)) := by
  have hstate := FIFO_insertAll_state M hM ps hnd
  refine ⟨by rw [hstate], ?_, ?_⟩
  · rw [hstate]
    simp [List.length_drop]
    omega
  · intro e rest hdrop
    rw [hstate]
    simp [FIFO_raw_popitem, hdrop]

/-- Concrete instance of C5: three distinct keys into a FIFO of
maxsize 2 keep the last two in insertion order, and popitem returns the
older of them. -/
theorem C5_fifo_eviction_witness :
    (FIFO_insertAll (⟨2, []⟩ : FIFOState Nat Nat)
        [(1, 10), (2, 20), (3, 30)]).entries = [(2, 20), (3, 30)] ∧
    FIFO_raw_popitem (FIFO_insertAll (⟨2, []⟩ : FIFOState Nat Nat)
        [(1, 10), (2, 20), (3, 30)]) =
      some ((2, 20), ⟨2, [(3, 30)]⟩) := by
  have h := C5_fifo_eviction 2 [(1, 10), (2, 20), (3, 30)]
    (by decide) (by decide) (by decide)
  exact ⟨h.1, h.2.2 (2, 20) [(3, 30)] (by decide)⟩

/-! ## Claim C6 -/

/-- Claim C6 counterexample: the claim says every cache type of the
common contract, the plain `Cache` included, exposes a `popitem` that
returns the next-to-evict pair on a non-empty cache and fails with the
Empty error (KeyError) on an empty one. `Cache.popitem`
(src/python/cachebox/_cachebox.py lines 169-170) instead raises
`NotImplementedError` unconditionally: here on a non-empty plain cache,
and the raised error is not the KeyError the claim names. -/
theorem C6_cache_popitem_counterexample :
    Cache_popitem (⟨3, [(1, 10)]⟩ : PlainCache Nat Nat) =
      Except.error PyErr.notImplementedError ∧
    (⟨3, [(1, 10)]⟩ : PlainCache Nat Nat).table ≠ [] ∧
    PyErr.notImplementedError ≠ PyErr.keyError :=
  ⟨rfl, by decide, by decide⟩

omit [DecidableEq K] in
/-- Claim C6 (amended): the policy-bearing caches expose `popitem` with
the claimed behaviour - shown for the FIFO policy, whose wrapper
(src/python/cachebox/_cachebox.py lines 408-413) returns the
next-to-evict entry of the spec-modelled store on a non-empty cache and
turns the Empty core error into a KeyError on an empty one - but the
plain `Cache` is excluded: its `popitem` raises `NotImplementedError`
unconditionally. -/
theorem C6_popitem_contract (c : FIFOState K V) (pc : PlainCache K V) :
    (c.entries = [] → FIFOCache_popitem c = Except.error PyErr.keyError) ∧
    (∀ e rest, c.entries = e :: rest →
      FIFOCache_popitem c = Except.ok (e, ⟨c.maxsize, rest⟩)) ∧
    Cache_popitem pc = Except.error PyErr.notImplementedError := by
  refine ⟨fun h => ?_, fun e rest h => ?_, rfl⟩
  · simp [FIFOCache_popitem, FIFO_raw_popitem, h]
  · simp [FIFOCache_popitem, FIFO_raw_popitem, h]

/-- Concrete instance of the amended C6: popitem on an empty FIFO cache
fails with KeyError, on a one-entry FIFO cache returns that entry, and
on any plain Cache raises NotImplementedError. -/
theorem C6_popitem_contract_witness :
    FIFOCache_popitem (⟨2, []⟩ : FIFOState Nat Nat) =
      Except.error PyErr.keyError ∧
    FIFOCache_popitem (⟨2, [(1, 10)]⟩ : FIFOState Nat Nat) =
      Except.ok ((1, 10), ⟨2, []⟩) ∧
    Cache_popitem (⟨0, []⟩ : PlainCache Nat Nat) =
      Except.error PyErr.notImplementedError := by
  refine ⟨(C6_popitem_contract (⟨2, []⟩ : FIFOState Nat Nat) ⟨0, []⟩).1 rfl,
    ?_,
    (C6_popitem_contract (⟨2, []⟩ : FIFOState Nat Nat) ⟨0, []⟩).2.2⟩
  exact (C6_popitem_contract (⟨2, [(1, 10)]⟩ : FIFOState Nat Nat)
    ⟨0, []⟩).2.1 (1, 10) [] rfl

/-! ## Claim C7 -/

/-- Claim C7: `TTLCache.__init__` raises ValueError when the ttl,
after converting a timedelta to seconds, is not strictly positive;
`VTTLCache.insert` with a duration (or past/present datetime) whose
seconds value is not strictly positive raises ValueError and leaves the
cache unchanged, the check running before the store is touched; and
`VTTLCache.insert` with ttl None stores the entry without expiry. -/
theorem C7_ttl_validation (maxsize : Nat) (ttlArg : TTLSpec) (now : ℚ)
    (c : VTTLState K V) (k : K) (v : V) (t : VTTLSpec) :
    (ttlArg.toSeconds ≤ 0 →
      TTLCache_new K V maxsize ttlArg = Except.error PyErr.valueError) ∧
    (t.toSeconds now ≤ 0 →
      VTTLCache_insert now c k v (some t) =
        (Except.error PyErr.valueError, c)) ∧
    alookup ((VTTLCache_insert now c k v none).2).entries k =
      some (v, none) := by
  refine ⟨fun h => ?_, fun h => ?_, ?_⟩
  · simp [TTLCache_new, h]
  · simp [VTTLCache_insert, h]
  · have hgen : ∀ (l2 : List (K × V × Option ℚ)), alookup l2 k = none →
        alookup (l2 ++ [(k, (v, none))]) k = some (v, none) := by
      intro l2 h2
      rw [alookup_append_left_none _ _ _ h2]
      simp [alookup]
    cases hl : alookup (vttlExpire now c.entries) k with
    | some old =>
        simp [VTTLCache_insert, VTTL_raw_insert, hl, alookup_aupdate_self]
    | none =>
        by_cases hfull : 0 < c.maxsize ∧
            c.maxsize ≤ (vttlExpire now c.entries).length
        · cases hv : vttlVictim (vttlExpire now c.entries) with
          | none =>
              simp [VTTLCache_insert, VTTL_raw_insert, hl, hfull, hv,
                hgen _ hl]
          | some vk =>
              have h2 : alookup (aremove (vttlExpire now c.entries) vk) k =
                  none := alookup_aremove_none _ _ _ hl
              simp [VTTLCache_insert, VTTL_raw_insert, hl, hfull, hv,
                hgen _ h2]
        · simp [VTTLCache_insert, VTTL_raw_insert, hl, hfull, hgen _ hl]

/-- Concrete instance of C7: a timedelta of -1 seconds is rejected by
the TTL constructor, a datetime one second in the past is rejected by
the VTTL insert leaving the cache unchanged, and an insert with ttl
None stores the value without expiry. -/
theorem C7_ttl_validation_witness :
    TTLCache_new Nat Nat 5 (TTLSpec.delta (-1)) =
      Except.error PyErr.valueError ∧
    VTTLCache_insert 100 (⟨2, []⟩ : VTTLState Nat Nat) 1 10
        (some (VTTLSpec.datetime 99)) =
      (Except.error PyErr.valueError, (⟨2, []⟩ : VTTLState Nat Nat)) ∧
    alookup ((VTTLCache_insert 100 (⟨2, []⟩ : VTTLState Nat Nat) 1 10
        none).2).entries 1 = some (10, none) := by
  have h := C7_ttl_validation 5 (TTLSpec.delta (-1)) 100
    (⟨2, []⟩ : VTTLState Nat Nat) 1 10 (VTTLSpec.datetime 99)
  exact ⟨h.1 (by norm_num [TTLSpec.toSeconds]),
    h.2.1 (by norm_num [VTTLSpec.toSeconds]), h.2.2⟩

/-! ## Claim C8 -/

/-- Claim C8: the memoizer copy step `_copy_if_need` returns, for every
cached value: with copy_level 0 the stored object itself (identity
preserved); with copy_level 2 always the shallow copy `copy.copy(obj)`;
and with copy_level 1 the shallow copy exactly when the exact runtime
type of the object is `dict`, `list` or `set` (a subclass such as
`dictSub` does not qualify), the stored object itself otherwise. -/
theorem C8_copy_levels (cp : PyObj → PyObj) (obj : PyObj) :
    copy_if_need cp obj tocopyDefault 0 = obj ∧
    copy_if_need cp obj tocopyDefault 2 = cp obj ∧
    ((obj.ty = PyTy.dict ∨ obj.ty = PyTy.list ∨ obj.ty = PyTy.set) →
      copy_if_need cp obj tocopyDefault 1 = cp obj) ∧
    (obj.ty ≠ PyTy.dict → obj.ty ≠ PyTy.list → obj.ty ≠ PyTy.set →
      copy_if_need cp obj tocopyDefault 1 = obj) := by
  refine ⟨rfl, rfl, fun h => ?_, fun h1 h2 h3 => ?_⟩
  · rcases h with h | h | h <;> simp [copy_if_need, tocopyDefault, h]
  · simp [copy_if_need, tocopyDefault, h1, h2, h3]

/-- Concrete instance of C8 with a copy function that changes the
object identity: a dict is copied at level 1, a dict subclass is not,
level 0 preserves identity, level 2 always copies. -/
theorem C8_copy_levels_witness :
    copy_if_need (fun o => ⟨o.oid + 100, o.ty⟩) ⟨1, PyTy.dict⟩
      tocopyDefault 1 = ⟨101, PyTy.dict⟩ ∧
    copy_if_need (fun o => ⟨o.oid + 100, o.ty⟩) ⟨2, PyTy.dictSub⟩
      tocopyDefault 1 = ⟨2, PyTy.dictSub⟩ ∧
    copy_if_need (fun o => ⟨o.oid + 100, o.ty⟩) ⟨3, PyTy.int⟩
      tocopyDefault 0 = ⟨3, PyTy.int⟩ ∧
    copy_if_need (fun o => ⟨o.oid + 100, o.ty⟩) ⟨4, PyTy.int⟩
      tocopyDefault 2 = ⟨104, PyTy.int⟩ := by
  refine ⟨?_, ?_, ?_, ?_⟩
  · exact (C8_copy_levels (fun o => (⟨o.oid + 100, o.ty⟩ : PyObj))
      ⟨1, PyTy.dict⟩).2.2.1 (Or.inl rfl)
  · exact (C8_copy_levels (fun o => (⟨o.oid + 100, o.ty⟩ : PyObj))
      ⟨2, PyTy.dictSub⟩).2.2.2 (by decide) (by decide) (by decide)
  · exact (C8_copy_levels (fun o => (⟨o.oid + 100, o.ty⟩ : PyObj))
      ⟨3, PyTy.int⟩).1
  · exact (C8_copy_levels (fun o => (⟨o.oid + 100, o.ty⟩ : PyObj))
      ⟨4, PyTy.int⟩).2.1

/-! ## Claim C10 -/

theorem kwdsFlatten_length (kwds : List (String × PyVal)) :
    (kwdsFlatten kwds).length = 2 * kwds.length := by
  induction kwds with
  | nil => rfl
  | cons p rest ih =>
      obtain ⟨a, b⟩ := p
      simp [kwdsFlatten, ih]
      omega

theorem fastSingle_of_length_ne_one (ft : List PyValTy) (l : List PyVal)
    (h : l.length ≠ 1) : fastSingle ft l = none := by
  rcases l with _ | ⟨a, rest⟩
  · rfl
  · rcases rest with _ | ⟨b, rest2⟩
    · simp at h
    · rfl

/-- Claim C10: `make_key(args, kwds)` returns the args tuple when kwds
is empty, and the args extended with the `object` sentinel followed by
the flattened (name, value) keyword items when kwds is non-empty;
except that a one-element key whose single element has exact type int
or str is returned unwrapped, so the hashed key of a lone int or str
argument `x` with no keywords equals `hash(x)`. -/
theorem C10_make_key (args : List PyVal) (kwds : List (String × PyVal))
    (x : PyVal) (pyhash : PyVal → Int) :
    (kwds ≠ [] → make_key args kwds fasttypeDefault =
        PyVal.tup (args ++ PyVal.objSentinel :: kwdsFlatten kwds)) ∧
    (args = [x] → (x.typeTag = PyValTy.intT ∨ x.typeTag = PyValTy.strT) →
        make_key args [] fasttypeDefault = x) ∧
    ((∀ y, args = [y] →
        y.typeTag ≠ PyValTy.intT ∧ y.typeTag ≠ PyValTy.strT) →
      make_key args [] fasttypeDefault = PyVal.tup args) ∧
    ((x.typeTag = PyValTy.intT ∨ x.typeTag = PyValTy.strT) →
        make_hash_key pyhash [x] [] = pyhash x) := by
  refine ⟨fun hk => ?_, fun ha hx => ?_, fun hy => ?_, fun hx => ?_⟩
  · have hne : kwds.isEmpty = false := by
      rcases kwds with _ | ⟨p, rest⟩
      · exact absurd rfl hk
      · rfl
    have hk1 : 1 ≤ kwds.length := by
      rcases kwds with _ | ⟨p, rest⟩
      · exact absurd rfl hk
      · simp
    have hlen : (args ++ PyVal.objSentinel :: kwdsFlatten kwds).length ≠ 1 := by
      have hfl := kwdsFlatten_length kwds
      simp [List.length_append, hfl]
      omega
    have hfs := fastSingle_of_length_ne_one fasttypeDefault _ hlen
    simp [make_key, hne, hfs]
  · subst ha
    rcases hx with h | h <;>
      simp [make_key, fastSingle, fasttypeDefault, h]
  · rcases args with _ | ⟨a, rest⟩
    · have hfs := fastSingle_of_length_ne_one fasttypeDefault
        ([] : List PyVal) (by simp)
      simp [make_key, hfs]
    · rcases rest with _ | ⟨b, rest2⟩
      · have h1 := (hy a rfl).1
        have h2 := (hy a rfl).2
        simp [make_key, fastSingle, fasttypeDefault, h1, h2]
      · have hfs := fastSingle_of_length_ne_one fasttypeDefault
          (a :: b :: rest2) (by simp)
        simp [make_key, hfs]
  · have hmk : make_key [x] [] fasttypeDefault = x := by
      rcases hx with h | h <;>
        simp [make_key, fastSingle, fasttypeDefault, h]
    simp [make_hash_key, hmk]

/-- Concrete instance of C10: keyword arguments produce the
sentinel-separated tuple, a single int argument is returned unwrapped,
a single bool argument is not (bool is not exactly int), and the hashed
key of a single int equals the hash of that int. -/
theorem C10_make_key_witness :
    make_key [] [(("a"), PyVal.int 2)] fasttypeDefault =
      PyVal.tup [PyVal.objSentinel, PyVal.str ("a"), PyVal.int 2] ∧
    make_key [PyVal.int 5] [] fasttypeDefault = PyVal.int 5 ∧
    make_key [PyVal.boolean true] [] fasttypeDefault =
      PyVal.tup [PyVal.boolean true] ∧
    make_hash_key (fun _ => 9) [PyVal.int 5] [] = 9 := by
  refine ⟨?_, ?_, ?_, ?_⟩
  · exact (C10_make_key [] [(("a"), PyVal.int 2)] PyVal.objSentinel
      (fun _ => 9)).1 (by simp)
  · exact (C10_make_key [PyVal.int 5] [] (PyVal.int 5)
      (fun _ => 9)).2.1 rfl (Or.inl rfl)
  · refine (C10_make_key [PyVal.boolean true] [] (PyVal.int 0)
      (fun _ => 9)).2.2.1 ?_
    intro y h
    have hy : PyVal.boolean true = y := by injection h
    subst hy
    exact ⟨by decide, by decide⟩
  · exact (C10_make_key [] [] (PyVal.int 5) (fun _ => 9)).2.2.2
      (Or.inl rfl)

end Cachebox
